import Mathlib

set_option linter.unusedVariables false

/-!
# Verification of the SiriDB heart-beat task (`src/siri/heartbeat.c`)

A shallow embedding of the heart-beat scheduler of SiriDB: the status state
machine driven by the timer callback (`HEARTBEAT_cb`), the completion
callback (`HEARTBEAT_work_finish`), cancellation (`siri_heartbeat_cancel`)
and initialization (`siri_heartbeat_init`), together with an event-trace
model of the worker traversal (`HEARTBEAT_work`) that records mutex
operations, reference-count operations, the `sleep(1)` call and every
`siridb_server_connect` call.

Machine integers play no role here (the only arithmetic is the timer period
`heartbeat_interval * 1000`, far below any overflow boundary, and loop
indices), so counters are modelled as `Nat`.  C pointers (`siridb_t *`,
`siridb_server_t *`) are modelled as `Nat` identities; pointer comparison
against `siridb->server` becomes identity comparison.
-/

namespace Heartbeat

/-- The heart-beat status values `SIRI_HEARTBEAT_PENDING`,
`SIRI_HEARTBEAT_RUNNING` and `SIRI_HEARTBEAT_CANCELLED`. -/
inductive Status where
  | pending
  | running
  | cancelled
  deriving DecidableEq, Repr

/-- Status transition performed by `HEARTBEAT_work_finish`
(heartbeat.c lines 146-148): reset to pending if and only if the status is
running.  The libuv completion code `uvStatus` (0 for a normal completion,
`UV_ECANCELED` for a cancelled work request) is only logged by the C code
and has no effect on the transition. -/
def HEARTBEAT_work_finish (uvStatus : Int) (s : Status) : Status :=
  if s = Status.running then Status.pending else s

/-- Scheduler state observable from the main thread: the status field of the
static `heartbeat` object, the number of worker tasks currently queued or
running on the thread pool (`active`), and the total number of runs ever
dispatched through `uv_queue_work` (`dispatched`). -/
structure SchedState where
  status : Status
  active : Nat
  dispatched : Nat
  deriving DecidableEq, Repr

/-- Timer callback `HEARTBEAT_cb` (heartbeat.c lines 151-174): if the status
is not pending, log and return; otherwise set the status to running and
queue exactly one worker task. -/
def HEARTBEAT_cb (s : SchedState) : SchedState :=
  if s.status ≠ Status.pending then s
  else { s with
          status := Status.running
          active := s.active + 1
          dispatched := s.dispatched + 1 }

/-- `siri_heartbeat_cancel` (heartbeat.c lines 42-51): unconditionally set
the status to cancelled.  The `uv_cancel` call only succeeds when the work
request has not started yet; either way the completion callback still runs,
so `active` is unchanged here. -/
def siri_heartbeat_cancel (s : SchedState) : SchedState :=
  { s with status := Status.cancelled }

/-- The main-thread events that touch the scheduler state after
initialization: a timer fire, a worker-completion callback (with its libuv
status code), and a cancel call. -/
inductive SchedEvent where
  | fire
  | finish (uvStatus : Int)
  | cancel

/-- One main-thread event applied to the scheduler state.  A completion
callback ends one queued worker task and applies the
`HEARTBEAT_work_finish` status transition. -/
def schedStep (s : SchedState) : SchedEvent → SchedState
  | SchedEvent.fire => HEARTBEAT_cb s
  | SchedEvent.finish u =>
      { s with
          status := HEARTBEAT_work_finish u s.status
          active := s.active - 1 }
  | SchedEvent.cancel => siri_heartbeat_cancel s

/-- A sequence of main-thread events applied in order. -/
def schedRun (s : SchedState) : List SchedEvent → SchedState
  | [] => s
  | e :: es => schedRun (schedStep s e) es

/-- Scheduler state right after `siri_heartbeat_init`: status pending, no
worker task queued, nothing dispatched yet. -/
def initState : SchedState :=
  { status := Status.pending, active := 0, dispatched := 0 }

/-- The inductive invariant behind mutual exclusion: never more than one
worker task is in flight, and whenever the status is pending no worker task
is in flight. -/
def MutexInv (s : SchedState) : Prop :=
  s.active ≤ 1 ∧ (s.status = Status.pending → s.active = 0)

/-- A server record as seen by the traversal: its identity (the
`siridb_server_t *` pointer in the C code) and whether `server->socket` is
non-NULL, i.e. whether a connection is currently open. -/
structure SServer where
  sid : Nat
  socket : Bool
  deriving DecidableEq, Repr

/-- A database record as seen by the traversal: its identity (the
`siridb_t *` pointer), the identity of its own server entry
(`siridb->server`), and its server list (`siridb->servers` in list
order). -/
structure SDatabase where
  dbid : Nat
  self : Nat
  servers : List SServer
  deriving DecidableEq, Repr

/-- The mutexes taken by `HEARTBEAT_work`: the global `siri.siridb_mutex`,
and `siridb->servers_mutex` of the database with identity `d`. -/
inductive HBLock where
  | dbList
  | servers (d : Nat)
  deriving DecidableEq, Repr

/-- Observable actions of the worker traversal: mutex operations, reference
count operations (`siridb_incref`/`siridb_decref` on database `d`,
`siridb_server_incref`/`siridb_server_decref` on server `s`), the
`sleep(1)` call, and a `siridb_server_connect(db, server)` call. -/
inductive HBEvent where
  | lock (l : HBLock)
  | unlock (l : HBLock)
  | increfDb (d : Nat)
  | decrefDb (d : Nat)
  | increfSrv (s : Nat)
  | decrefSrv (s : Nat)
  | sleep
  | connect (d s : Nat)
  deriving DecidableEq, Repr

/-- Whether the read of `heartbeat.status` at check-point index `t` observes
`SIRI_HEARTBEAT_CANCELLED`.  `cT` is the check-point index from which a
concurrent `siri_heartbeat_cancel` on the main thread has taken effect
(`none` when cancel is never called); once set, the status stays cancelled
for the remainder of the run, so the observation is monotone in `t`. -/
def cancelledAt (cT : Option Nat) (t : Nat) : Bool :=
  match cT with
  | none => false
  | some c => decide (c ≤ t)

/-- Events of the per-server loop (heartbeat.c lines 98-111) for the
database `dbid` whose self entry is `self`, starting at check-point index
`t`.  Each iteration reads the status once (one check-point): the connect
call happens when the server is not the self entry, the status read is not
cancelled, and `server->socket` is NULL; the server reference taken by the
snapshot is then decremented unconditionally. -/
def serverTrace (dbid self : Nat) (cT : Option Nat) :
    List SServer → Nat → List HBEvent
  | [], _ => []
  | srv :: rest, t =>
      (if srv.sid ≠ self ∧ cancelledAt cT t = false ∧ srv.socket = false
        then [HBEvent.connect dbid srv.sid] else []) ++
      HBEvent.decrefSrv srv.sid :: serverTrace dbid self cT rest (t + 1)

/-- Events of one database iteration before its server loop (heartbeat.c
lines 84-96): lock the servers mutex, snapshot the server list incrementing
every server reference, unlock, then `sleep(1)`. -/
def dbSnapshotEvents (db : SDatabase) : List HBEvent :=
  HBEvent.lock (HBLock.servers db.dbid) ::
    (db.servers.map fun s => HBEvent.increfSrv s.sid) ++
    [HBEvent.unlock (HBLock.servers db.dbid), HBEvent.sleep]

/-- Events of the main database loop (heartbeat.c lines 78-122), starting at
check-point index `t`.  After each database's server loop the status is
read once more (line 115); a cancelled status breaks out of the loop before
the next database is visited. -/
def dbTrace (cT : Option Nat) : List SDatabase → Nat → List HBEvent
  | [], _ => []
  | db :: rest, t =>
      dbSnapshotEvents db ++
      serverTrace db.dbid db.self cT db.servers t ++
      (if cancelledAt cT (t + db.servers.length) then []
        else dbTrace cT rest (t + db.servers.length + 1))

/-- The value held by the C variable `siridb` when the main database loop
exits: the last database entered by the loop (`none` when the snapshot is
empty).  The final decrement loop of heartbeat.c lines 124-127 uses this
stale variable without re-indexing the snapshot. -/
def dbLastVar (cT : Option Nat) : List SDatabase → Nat → Option Nat
  | [], _ => none
  | db :: rest, t =>
      if cancelledAt cT (t + db.servers.length) then some db.dbid
      else some ((dbLastVar cT rest (t + db.servers.length + 1)).getD db.dbid)

/-- The full event trace of `HEARTBEAT_work` (heartbeat.c lines 53-128) on
the database list `dbs`, with cancellation taking effect from check-point
`cT`: lock the database-list mutex, snapshot it incrementing every database
reference, unlock, run the main loop, and finally run the decrement loop of
lines 124-127 — which decrements the variable `siridb` (the last database
entered by the main loop) once per snapshot entry, instead of indexing the
snapshot. -/
def HEARTBEAT_work (dbs : List SDatabase) (cT : Option Nat) : List HBEvent :=
  HBEvent.lock HBLock.dbList ::
    (dbs.map fun db => HBEvent.increfDb db.dbid) ++
    [HBEvent.unlock HBLock.dbList] ++
    dbTrace cT dbs 0 ++
    (match dbLastVar cT dbs 0 with
      | none => []
      | some v => List.replicate dbs.length (HBEvent.decrefDb v))

/-- Number of occurrences of the event `e` in a trace. -/
def countEv (e : HBEvent) : List HBEvent → Nat
  | [] => 0
  | x :: xs => (if x = e then 1 else 0) + countEv e xs

/-- Timestamped variant of `serverTrace`: each event is paired with the
check-point clock at its emission.  The clock advances only at status
reads, one per server iteration, so the connect call emitted by an
iteration carries exactly the index `t` of the status read that guarded it
(the `heartbeat.status != SIRI_HEARTBEAT_CANCELLED` conjunct of
heartbeat.c line 103). -/
def serverTraceT (dbid self : Nat) (cT : Option Nat) :
    List SServer → Nat → List (Nat × HBEvent)
  | [], _ => []
  | srv :: rest, t =>
      (if srv.sid ≠ self ∧ cancelledAt cT t = false ∧ srv.socket = false
        then [(t, HBEvent.connect dbid srv.sid)] else []) ++
      (t, HBEvent.decrefSrv srv.sid) :: serverTraceT dbid self cT rest (t + 1)

/-- Timestamped variant of `dbSnapshotEvents`: the snapshot of a database's
server list performs no status read, so all its events carry the clock `t`
at which the database's iteration starts. -/
def dbSnapshotEventsT (db : SDatabase) (t : Nat) : List (Nat × HBEvent) :=
  (dbSnapshotEvents db).map fun e => (t, e)

/-- Timestamped variant of `dbTrace`. -/
def dbTraceT (cT : Option Nat) : List SDatabase → Nat → List (Nat × HBEvent)
  | [], _ => []
  | db :: rest, t =>
      dbSnapshotEventsT db t ++
      serverTraceT db.dbid db.self cT db.servers t ++
      (if cancelledAt cT (t + db.servers.length) then []
        else dbTraceT cT rest (t + db.servers.length + 1))

/-- The check-point clock when the main database loop exits (every visited
database contributed one read per server plus the post-loop read of
heartbeat.c line 115). -/
def dbEndClock (cT : Option Nat) : List SDatabase → Nat → Nat
  | [], t => t
  | db :: rest, t =>
      if cancelledAt cT (t + db.servers.length) then t + db.servers.length + 1
      else dbEndClock cT rest (t + db.servers.length + 1)

/-- Timestamped variant of `HEARTBEAT_work`: the same event sequence (see
`HEARTBEAT_workT_map_snd`), with every event paired with the check-point
clock at its emission.  The database snapshot performs no status read and
carries clock 0; the final decrement loop runs after the last status read
and carries the exit clock. -/
def HEARTBEAT_workT (dbs : List SDatabase) (cT : Option Nat) :
    List (Nat × HBEvent) :=
  (0, HBEvent.lock HBLock.dbList) ::
    (dbs.map fun db => (0, HBEvent.increfDb db.dbid)) ++
    [(0, HBEvent.unlock HBLock.dbList)] ++
    dbTraceT cT dbs 0 ++
    (match dbLastVar cT dbs 0 with
      | none => []
      | some v =>
          List.replicate dbs.length (dbEndClock cT dbs 0, HBEvent.decrefDb v))

/-- Whether an event is a connect call. -/
def isConnect : HBEvent → Bool
  | HBEvent.connect _ _ => true
  | _ => false

/-- Total number of connect calls in a trace. -/
def connectCount (evs : List HBEvent) : Nat :=
  (evs.filter isConnect).length

/-- Every non-self server of every database already has an open
connection. -/
def allConnected (dbs : List SDatabase) : Bool :=
  dbs.all fun db => db.servers.all fun s => s.sid == db.self || s.socket

/-- Locks held after processing one event (most recently acquired first). -/
def heldUpd (held : List HBLock) : HBEvent → List HBLock
  | HBEvent.lock l => l :: held
  | HBEvent.unlock l => held.erase l
  | HBEvent.increfDb _ => held
  | HBEvent.decrefDb _ => held
  | HBEvent.increfSrv _ => held
  | HBEvent.decrefSrv _ => held
  | HBEvent.sleep => held
  | HBEvent.connect _ _ => held

/-- Legality of one event under a set of held locks: the `sleep(1)` call,
connect attempts, reference decrements and fresh mutex acquisitions happen
only with no mutex held; the snapshot reference increments and the unlocks
are the only actions permitted while a mutex is held. -/
def eventOkUnder (held : List HBLock) : HBEvent → Bool
  | HBEvent.lock _ => held.isEmpty
  | HBEvent.unlock _ => true
  | HBEvent.increfDb _ => true
  | HBEvent.decrefDb _ => held.isEmpty
  | HBEvent.increfSrv _ => true
  | HBEvent.decrefSrv _ => held.isEmpty
  | HBEvent.sleep => held.isEmpty
  | HBEvent.connect _ _ => held.isEmpty

/-- Whole-trace lock discipline check, threading the held-lock set. -/
def lockDiscipline (held : List HBLock) : List HBEvent → Bool
  | [] => true
  | e :: es => eventOkUnder held e && lockDiscipline (heldUpd held e) es

/-- The static heartbeat object as set up by `siri_heartbeat_init`: the
status field and the timer (`heartbeat.timer`) with its initial delay,
repeat period (milliseconds) and whether `uv_timer_start` has run. -/
structure HeartbeatObj where
  status : Status
  timerInitialMs : Nat
  timerRepeatMs : Nat
  timerStarted : Bool
  deriving DecidableEq, Repr

/-- `siri_heartbeat_init` (heartbeat.c lines 29-40): computes the timeout
`heartbeat_interval * 1000`, sets the status to pending, initializes the
timer and starts it with that timeout as both initial delay and repeat
period.  The C function returns void and ignores the return values of
`uv_timer_init` and `uv_timer_start`, so `timerInitOk` — the outcome of
timer-subsystem creation — is recorded as an argument but, like the
previous state of the object, has no effect on the result. -/
def siri_heartbeat_init (heartbeatInterval : Nat) (timerInitOk : Bool)
    (prev : HeartbeatObj) : HeartbeatObj :=
  { status := Status.pending
    timerInitialMs := heartbeatInterval * 1000
    timerRepeatMs := heartbeatInterval * 1000
    timerStarted := true }

end Heartbeat

namespace Heartbeat

theorem mutexInv_step (s : SchedState) (e : SchedEvent) (h : MutexInv s) :
    MutexInv (schedStep s e) := by
  obtain ⟨h1, h2⟩ := h
  cases e with
  | fire =>
      by_cases hp : s.status = Status.pending
      · simp [schedStep, HEARTBEAT_cb, hp, MutexInv, h2 hp]
      · simp only [schedStep, HEARTBEAT_cb, ne_eq, hp, not_false_eq_true, if_pos]
        exact ⟨h1, h2⟩
  | finish u =>
      exact ⟨Nat.le_trans (Nat.sub_le _ _) h1, fun _ => Nat.sub_eq_zero_of_le h1⟩
  | cancel =>
      refine ⟨h1, fun hp => ?_⟩
      simp [schedStep, siri_heartbeat_cancel] at hp

theorem mutexInv_run (s : SchedState) (evs : List SchedEvent) (h : MutexInv s) :
    MutexInv (schedRun s evs) := by
  induction evs generalizing s with
  | nil => exact h
  | cons e es ih => exact ih _ (mutexInv_step s e h)

theorem connectCount_append (a b : List HBEvent) :
    connectCount (a ++ b) = connectCount a + connectCount b := by
  simp [connectCount, List.filter_append]

theorem connectCount_cons_not (e : HBEvent) (l : List HBEvent)
    (h : isConnect e = false) : connectCount (e :: l) = connectCount l := by
  simp [connectCount, List.filter_cons, h]

theorem connectCount_serverTrace_allConnected (dbid self : Nat)
    (cT : Option Nat) (servers : List SServer) (t : Nat)
    (h : (servers.all fun s => s.sid == self || s.socket) = true) :
    connectCount (serverTrace dbid self cT servers t) = 0 := by
  induction servers generalizing t with
  | nil => rfl
  | cons srv rest ih =>
      rw [List.all_cons, Bool.and_eq_true] at h
      have h1 := h.1
      rw [Bool.or_eq_true, beq_iff_eq] at h1
      rw [serverTrace, if_neg]
      · simpa [connectCount, List.filter_cons, isConnect] using ih (t + 1) h.2
      · rintro ⟨hs, -, hsock⟩
        rcases h1 with h1 | h1
        · exact hs h1
        · rw [h1] at hsock
          cases hsock

theorem connectCount_dbSnapshotEvents (db : SDatabase) :
    connectCount (dbSnapshotEvents db) = 0 := by
  simp only [dbSnapshotEvents, connectCount, List.filter_cons, List.filter_append]
  induction db.servers with
  | nil => rfl
  | cons s rest ih => simpa [List.filter_cons, isConnect] using ih

theorem connectCount_dbTrace_allConnected (cT : Option Nat)
    (dbs : List SDatabase) (t : Nat) (h : allConnected dbs = true) :
    connectCount (dbTrace cT dbs t) = 0 := by
  induction dbs generalizing t with
  | nil => rfl
  | cons db rest ih =>
      rw [allConnected, List.all_cons, Bool.and_eq_true] at h
      rw [dbTrace, connectCount_append, connectCount_append]
      rw [connectCount_dbSnapshotEvents,
        connectCount_serverTrace_allConnected _ _ _ _ _ h.1]
      split
      · rfl
      · simpa using ih _ h.2

theorem connectCount_replicate_decrefDb (n v : Nat) :
    connectCount (List.replicate n (HBEvent.decrefDb v)) = 0 := by
  induction n with
  | zero => rfl
  | succ n ih =>
      simpa [List.replicate_succ, connectCount, List.filter_cons, isConnect] using ih

theorem connectCount_work_allConnected (dbs : List SDatabase) (cT : Option Nat)
    (h : allConnected dbs = true) : connectCount (HEARTBEAT_work dbs cT) = 0 := by
  rw [HEARTBEAT_work]
  have hmap : connectCount (dbs.map fun db => HBEvent.increfDb db.dbid) = 0 := by
    induction dbs with
    | nil => rfl
    | cons db rest ih =>
        simpa [List.map_cons, connectCount, List.filter_cons, isConnect] using ih
  have hfinal : connectCount
      (match dbLastVar cT dbs 0 with
        | none => []
        | some v => List.replicate dbs.length (HBEvent.decrefDb v)) = 0 := by
    cases dbLastVar cT dbs 0 with
    | none => rfl
    | some v => exact connectCount_replicate_decrefDb dbs.length v
  rw [connectCount_append, connectCount_append, connectCount_append,
    connectCount_cons_not (HBEvent.lock HBLock.dbList) _ rfl, hmap,
    connectCount_dbTrace_allConnected cT dbs 0 h, hfinal]
  rfl

theorem serverTrace_connect_inv {d s : Nat} (dbid self : Nat) (cT : Option Nat)
    (servers : List SServer) (t : Nat)
    (h : HBEvent.connect d s ∈ serverTrace dbid self cT servers t) :
    d = dbid ∧ ∃ srv, srv ∈ servers ∧ srv.sid = s ∧ srv.sid ≠ self
      ∧ srv.socket = false ∧ ∃ u, cancelledAt cT u = false := by
  induction servers generalizing t with
  | nil => cases h
  | cons srv rest ih =>
      rw [serverTrace] at h
      by_cases hc : srv.sid ≠ self ∧ cancelledAt cT t = false ∧ srv.socket = false
      · rw [if_pos hc, List.singleton_append] at h
        rcases List.mem_cons.1 h with h1 | h1
        · obtain ⟨hd, hs⟩ : d = dbid ∧ s = srv.sid := by
            injection h1 with hd hs
            exact ⟨hd, hs⟩
          exact ⟨hd, srv, List.mem_cons_self srv rest, hs.symm, hc.1, hc.2.2,
            t, hc.2.1⟩
        · rcases List.mem_cons.1 h1 with h2 | h2
          · exact HBEvent.noConfusion h2
          · obtain ⟨hd, srv', hmem, hprops⟩ := ih (t + 1) h2
            exact ⟨hd, srv', List.mem_cons_of_mem _ hmem, hprops⟩
      · rw [if_neg hc, List.nil_append] at h
        rcases List.mem_cons.1 h with h1 | h1
        · exact HBEvent.noConfusion h1
        · obtain ⟨hd, srv', hmem, hprops⟩ := ih (t + 1) h1
          exact ⟨hd, srv', List.mem_cons_of_mem _ hmem, hprops⟩

theorem connect_not_mem_dbSnapshotEvents (db : SDatabase) (d s : Nat) :
    HBEvent.connect d s ∉ dbSnapshotEvents db := by
  intro h
  rw [dbSnapshotEvents] at h
  rcases List.mem_append.1 h with h1 | h1
  · rcases List.mem_cons.1 h1 with h2 | h2
    · exact HBEvent.noConfusion h2
    · rcases List.mem_map.1 h2 with ⟨x, -, h3⟩
      exact HBEvent.noConfusion h3
  · rcases List.mem_cons.1 h1 with h2 | h2
    · exact HBEvent.noConfusion h2
    · rcases List.mem_cons.1 h2 with h3 | h3
      · exact HBEvent.noConfusion h3
      · cases h3

theorem dbTrace_connect_inv {d s : Nat} (cT : Option Nat)
    (dbs : List SDatabase) (t : Nat)
    (h : HBEvent.connect d s ∈ dbTrace cT dbs t) :
    ∃ db, db ∈ dbs ∧ db.dbid = d ∧ ∃ srv, srv ∈ db.servers ∧ srv.sid = s
      ∧ srv.sid ≠ db.self ∧ srv.socket = false
      ∧ ∃ u, cancelledAt cT u = false := by
  induction dbs generalizing t with
  | nil => cases h
  | cons db rest ih =>
      rw [dbTrace] at h
      rcases List.mem_append.1 h with h1 | h1
      · rcases List.mem_append.1 h1 with h2 | h2
        · exact absurd h2 (connect_not_mem_dbSnapshotEvents db d s)
        · obtain ⟨hd, srv, hmem, h3, h4, h5, h6⟩ :=
            serverTrace_connect_inv db.dbid db.self cT db.servers t h2
          exact ⟨db, List.mem_cons_self db rest, hd.symm, srv, hmem, h3, h4, h5, h6⟩
      · revert h1
        split
        · intro h1
          cases h1
        · intro h1
          obtain ⟨db', hmem, hrest⟩ := ih _ h1
          exact ⟨db', List.mem_cons_of_mem _ hmem, hrest⟩

theorem serverTraceT_map_snd (dbid self : Nat) (cT : Option Nat)
    (servers : List SServer) (t : Nat) :
    (serverTraceT dbid self cT servers t).map Prod.snd
      = serverTrace dbid self cT servers t := by
  induction servers generalizing t with
  | nil => rfl
  | cons srv rest ih =>
      rw [serverTraceT, serverTrace]
      by_cases hc : srv.sid ≠ self ∧ cancelledAt cT t = false ∧ srv.socket = false
      · rw [if_pos hc, if_pos hc]
        simp [ih (t + 1)]
      · rw [if_neg hc, if_neg hc]
        simp [ih (t + 1)]

theorem dbSnapshotEventsT_map_snd (db : SDatabase) (t : Nat) :
    (dbSnapshotEventsT db t).map Prod.snd = dbSnapshotEvents db := by
  simp [dbSnapshotEventsT, List.map_map]

theorem dbTraceT_map_snd (cT : Option Nat) (dbs : List SDatabase) (t : Nat) :
    (dbTraceT cT dbs t).map Prod.snd = dbTrace cT dbs t := by
  induction dbs generalizing t with
  | nil => rfl
  | cons db rest ih =>
      rw [dbTraceT, dbTrace]
      rw [List.map_append, List.map_append, dbSnapshotEventsT_map_snd,
        serverTraceT_map_snd]
      split
      · rfl
      · rw [ih]

theorem HEARTBEAT_workT_map_snd (dbs : List SDatabase) (cT : Option Nat) :
    (HEARTBEAT_workT dbs cT).map Prod.snd = HEARTBEAT_work dbs cT := by
  rw [HEARTBEAT_workT, HEARTBEAT_work]
  rw [List.map_append, List.map_append, List.map_append, List.map_cons,
    List.map_map, dbTraceT_map_snd]
  cases dbLastVar cT dbs 0 with
  | none => rfl
  | some v => simp [List.map_replicate]

theorem serverTraceT_connect_inv {t d s : Nat} (dbid self : Nat)
    (cT : Option Nat) (servers : List SServer) (t0 : Nat)
    (h : (t, HBEvent.connect d s) ∈ serverTraceT dbid self cT servers t0) :
    d = dbid ∧ cancelledAt cT t = false
      ∧ ∃ srv, srv ∈ servers ∧ srv.sid = s ∧ srv.sid ≠ self
        ∧ srv.socket = false := by
  induction servers generalizing t0 with
  | nil => cases h
  | cons srv rest ih =>
      rw [serverTraceT] at h
      by_cases hc : srv.sid ≠ self ∧ cancelledAt cT t0 = false ∧ srv.socket = false
      · rw [if_pos hc, List.singleton_append] at h
        rcases List.mem_cons.1 h with h1 | h1
        · obtain ⟨ht, hd, hs⟩ : t = t0 ∧ d = dbid ∧ s = srv.sid := by
            injection h1 with ht he
            injection he with hd hs
            exact ⟨ht, hd, hs⟩
          exact ⟨hd, ht ▸ hc.2.1, srv, List.mem_cons_self srv rest, hs.symm,
            hc.1, hc.2.2⟩
        · rcases List.mem_cons.1 h1 with h2 | h2
          · injection h2 with ht he
            exact HBEvent.noConfusion he
          · obtain ⟨hd, hcanc, srv', hmem, hprops⟩ := ih (t0 + 1) h2
            exact ⟨hd, hcanc, srv', List.mem_cons_of_mem _ hmem, hprops⟩
      · rw [if_neg hc, List.nil_append] at h
        rcases List.mem_cons.1 h with h1 | h1
        · injection h1 with ht he
          exact HBEvent.noConfusion he
        · obtain ⟨hd, hcanc, srv', hmem, hprops⟩ := ih (t0 + 1) h1
          exact ⟨hd, hcanc, srv', List.mem_cons_of_mem _ hmem, hprops⟩

theorem connect_not_mem_dbSnapshotEventsT (db : SDatabase) (t0 t d s : Nat) :
    (t, HBEvent.connect d s) ∉ dbSnapshotEventsT db t0 := by
  intro h
  rcases List.mem_map.1 h with ⟨e, hmem, heq⟩
  injection heq with ht he
  exact connect_not_mem_dbSnapshotEvents db d s (he ▸ hmem)

theorem dbTraceT_connect_inv {t d s : Nat} (cT : Option Nat)
    (dbs : List SDatabase) (t0 : Nat)
    (h : (t, HBEvent.connect d s) ∈ dbTraceT cT dbs t0) :
    cancelledAt cT t = false
      ∧ ∃ db, db ∈ dbs ∧ db.dbid = d ∧ ∃ srv, srv ∈ db.servers ∧ srv.sid = s
        ∧ srv.sid ≠ db.self ∧ srv.socket = false := by
  induction dbs generalizing t0 with
  | nil => cases h
  | cons db rest ih =>
      rw [dbTraceT] at h
      rcases List.mem_append.1 h with h1 | h1
      · rcases List.mem_append.1 h1 with h2 | h2
        · exact absurd h2 (connect_not_mem_dbSnapshotEventsT db t0 t d s)
        · obtain ⟨hd, hcanc, srv, hmem, hprops⟩ :=
            serverTraceT_connect_inv db.dbid db.self cT db.servers t0 h2
          exact ⟨hcanc, db, List.mem_cons_self db rest, hd.symm, srv, hmem, hprops⟩
      · revert h1
        split
        · intro h1
          cases h1
        · intro h1
          obtain ⟨hcanc, db', hmem, hrest⟩ := ih _ h1
          exact ⟨hcanc, db', List.mem_cons_of_mem _ hmem, hrest⟩

theorem lockDiscipline_append (held : List HBLock) (a b : List HBEvent) :
    lockDiscipline held (a ++ b)
      = (lockDiscipline held a && lockDiscipline (a.foldl heldUpd held) b) := by
  induction a generalizing held with
  | nil => simp [lockDiscipline]
  | cons e es ih =>
      simp [lockDiscipline, List.foldl_cons, ih, Bool.and_assoc]

theorem lockDiscipline_increfSrvs (l : List HBLock) (servers : List SServer) :
    lockDiscipline l (servers.map fun s => HBEvent.increfSrv s.sid) = true
    ∧ (servers.map fun s => HBEvent.increfSrv s.sid).foldl heldUpd l = l := by
  induction servers with
  | nil => exact ⟨rfl, rfl⟩
  | cons s rest ih =>
      simpa [List.map_cons, lockDiscipline, eventOkUnder, heldUpd] using ih

theorem lockDiscipline_serverTrace (dbid self : Nat) (cT : Option Nat)
    (servers : List SServer) (t : Nat) :
    lockDiscipline [] (serverTrace dbid self cT servers t) = true
    ∧ (serverTrace dbid self cT servers t).foldl heldUpd [] = [] := by
  induction servers generalizing t with
  | nil => exact ⟨rfl, rfl⟩
  | cons srv rest ih =>
      rw [serverTrace]
      by_cases hc : srv.sid ≠ self ∧ cancelledAt cT t = false ∧ srv.socket = false
      · rw [if_pos hc, List.singleton_append]
        simpa [lockDiscipline, eventOkUnder, heldUpd] using ih (t + 1)
      · rw [if_neg hc, List.nil_append]
        simpa [lockDiscipline, eventOkUnder, heldUpd] using ih (t + 1)

theorem lockDiscipline_dbSnapshotEvents (db : SDatabase) :
    lockDiscipline [] (dbSnapshotEvents db) = true
    ∧ (dbSnapshotEvents db).foldl heldUpd [] = [] := by
  have h := lockDiscipline_increfSrvs [HBLock.servers db.dbid] db.servers
  rw [dbSnapshotEvents]
  constructor
  · rw [lockDiscipline_append]
    simp [lockDiscipline, eventOkUnder, heldUpd, h.1, h.2, List.foldl_cons,
      List.erase_cons_head]
  · simp [List.foldl_append, List.foldl_cons, heldUpd, h.2, List.erase_cons_head]

theorem lockDiscipline_dbTrace (cT : Option Nat) (dbs : List SDatabase) (t : Nat) :
    lockDiscipline [] (dbTrace cT dbs t) = true
    ∧ (dbTrace cT dbs t).foldl heldUpd [] = [] := by
  induction dbs generalizing t with
  | nil => exact ⟨rfl, rfl⟩
  | cons db rest ih =>
      rw [dbTrace]
      have h1 := lockDiscipline_dbSnapshotEvents db
      have h2 := lockDiscipline_serverTrace db.dbid db.self cT db.servers t
      constructor
      · rw [lockDiscipline_append, lockDiscipline_append, h1.1, h1.2, h2.1]
        rw [List.foldl_append, h1.2, h2.2]
        simp only [Bool.true_and]
        split
        · rfl
        · exact (ih _).1
      · rw [List.foldl_append, List.foldl_append, h1.2, h2.2]
        split
        · rfl
        · exact (ih _).2

theorem lockDiscipline_replicate_decrefDb (n v : Nat) :
    lockDiscipline [] (List.replicate n (HBEvent.decrefDb v)) = true := by
  induction n with
  | zero => rfl
  | succ n ih =>
      simpa [List.replicate_succ, lockDiscipline, eventOkUnder, heldUpd] using ih

theorem lockDiscipline_increfDbs (l : List HBLock) (dbs : List SDatabase) :
    lockDiscipline l (dbs.map fun db => HBEvent.increfDb db.dbid) = true
    ∧ (dbs.map fun db => HBEvent.increfDb db.dbid).foldl heldUpd l = l := by
  induction dbs with
  | nil => exact ⟨rfl, rfl⟩
  | cons db rest ih =>
      simpa [List.map_cons, lockDiscipline, eventOkUnder, heldUpd] using ih

end Heartbeat

namespace Heartbeat

/-- **C1** (evidence of the code bug): on a run over two databases (ids 0
and 1, each holding only its own self server, sids 10 and 20) with no
cancellation, both snapshot entries are incremented once, but database 0 is
never decremented and database 1 is decremented twice: the final decrement
loop of heartbeat.c lines 124-127 decrements the stale loop variable
`siridb` on every pass instead of indexing the snapshot, so the
exactly-once release discipline fails. -/
theorem c1_db_decref_unbalanced :
    countEv (HBEvent.increfDb 0)
        (HEARTBEAT_work [⟨0, 10, [⟨10, false⟩]⟩, ⟨1, 20, [⟨20, false⟩]⟩] none) = 1
    ∧ countEv (HBEvent.decrefDb 0)
        (HEARTBEAT_work [⟨0, 10, [⟨10, false⟩]⟩, ⟨1, 20, [⟨20, false⟩]⟩] none) = 0
    ∧ countEv (HBEvent.increfDb 1)
        (HEARTBEAT_work [⟨0, 10, [⟨10, false⟩]⟩, ⟨1, 20, [⟨20, false⟩]⟩] none) = 1
    ∧ countEv (HBEvent.decrefDb 1)
        (HEARTBEAT_work [⟨0, 10, [⟨10, false⟩]⟩, ⟨1, 20, [⟨20, false⟩]⟩] none) = 2 := by
  decide

/-- **C2**: at most one worker run is in flight after any sequence of
main-thread events from the initial state; a timer fire while the status is
not pending changes nothing and dispatches no run; a fire while the status
is pending sets it to running and dispatches exactly one run. -/
theorem c2_mutual_exclusion (evs : List SchedEvent) (s : SchedState) :
    (schedRun initState evs).active ≤ 1
    ∧ (s.status ≠ Status.pending → HEARTBEAT_cb s = s)
    ∧ (s.status = Status.pending →
        HEARTBEAT_cb s =
          { s with
              status := Status.running
              active := s.active + 1
              dispatched := s.dispatched + 1 }) := by
  refine ⟨(mutexInv_run initState evs ⟨Nat.zero_le 1, fun _ => rfl⟩).1, ?_, ?_⟩
  · intro h
    simp [HEARTBEAT_cb, h]
  · intro h
    simp [HEARTBEAT_cb, h]

/-- **C2 witness**: two consecutive fires from the initial state leave at
most one worker task in flight, and a fire while running changes nothing. -/
theorem c2_mutual_exclusion_witness :
    (schedRun initState [SchedEvent.fire, SchedEvent.fire]).active ≤ 1
    ∧ HEARTBEAT_cb ⟨Status.running, 1, 1⟩ = ⟨Status.running, 1, 1⟩ :=
  ⟨(c2_mutual_exclusion [SchedEvent.fire, SchedEvent.fire] initState).1,
   (c2_mutual_exclusion [] ⟨Status.running, 1, 1⟩).2.1 (by decide)⟩

/-- **C3**: for every pre-status and every libuv completion code (normal
completion or early-cancellation abort alike), `HEARTBEAT_work_finish`
changes the status to pending exactly when the pre-status was running, and
a cancelled status stays cancelled. -/
theorem c3_finish_reconciliation (u : Int) (s : Status) :
    ((HEARTBEAT_work_finish u s = Status.pending ∧ s ≠ Status.pending)
        ↔ s = Status.running)
    ∧ (s = Status.cancelled → HEARTBEAT_work_finish u s = Status.cancelled) := by
  cases s <;> simp [HEARTBEAT_work_finish]

/-- **C3 witness**: instantiated at a cancelled pre-status and the libuv
code `UV_ECANCELED = -125` of an aborted run. -/
theorem c3_finish_reconciliation_witness :
    HEARTBEAT_work_finish (-125) Status.cancelled = Status.cancelled :=
  (c3_finish_reconciliation (-125) Status.cancelled).2 rfl

/-- **C4**: once the status is cancelled, any sequence of timer fires,
worker completions and cancel calls leaves it cancelled, and no further run
is ever dispatched. -/
theorem c4_cancelled_terminal (s : SchedState) (evs : List SchedEvent)
    (h : s.status = Status.cancelled) :
    (schedRun s evs).status = Status.cancelled
    ∧ (schedRun s evs).dispatched = s.dispatched := by
  induction evs generalizing s with
  | nil => exact ⟨h, rfl⟩
  | cons e es ih =>
      have hstep : (schedStep s e).status = Status.cancelled
          ∧ (schedStep s e).dispatched = s.dispatched := by
        cases e with
        | fire => simp [schedStep, HEARTBEAT_cb, h]
        | finish u => simp [schedStep, HEARTBEAT_work_finish, h]
        | cancel => simp [schedStep, siri_heartbeat_cancel]
      obtain ⟨h1, h2⟩ := ih (schedStep s e) hstep.1
      exact ⟨h1, h2.trans hstep.2⟩

/-- **C4 witness**: a cancelled state with 5 runs dispatched stays cancelled
and dispatches nothing through a fire, a completion, a repeated cancel and
another fire. -/
theorem c4_cancelled_terminal_witness :
    (schedRun ⟨Status.cancelled, 0, 5⟩
        [SchedEvent.fire, SchedEvent.finish 0, SchedEvent.cancel,
         SchedEvent.fire]).status = Status.cancelled
    ∧ (schedRun ⟨Status.cancelled, 0, 5⟩
        [SchedEvent.fire, SchedEvent.finish 0, SchedEvent.cancel,
         SchedEvent.fire]).dispatched = 5 :=
  c4_cancelled_terminal ⟨Status.cancelled, 0, 5⟩
    [SchedEvent.fire, SchedEvent.finish 0, SchedEvent.cancel, SchedEvent.fire] rfl

/-- **C5** (evidence of the code bug): a run over three databases D1, D2, D3
(ids 0, 1, 2, each with one disconnected non-self server, sids 11, 21, 31),
with cancellation taking effect at check-point 1 — after D1's server loop
has started (its status read at check-point 0 still saw a non-cancelled
status, so D1's connect went out).  D2 and D3 are indeed not visited: no
connect attributable to them and their server mutexes are never taken.  But
the database references taken by the snapshot are not all released: D2 and
D3 were each incremented once and never decremented, while D1 is
decremented three times (the decrement loop of lines 124-127 reuses the
stale variable `siridb`). -/
theorem c5_cancel_visits_but_leaks_refs :
    countEv (HBEvent.connect 0 11)
        (HEARTBEAT_work [⟨0, 10, [⟨11, false⟩]⟩, ⟨1, 20, [⟨21, false⟩]⟩,
          ⟨2, 30, [⟨31, false⟩]⟩] (some 1)) = 1
    ∧ countEv (HBEvent.connect 1 21)
        (HEARTBEAT_work [⟨0, 10, [⟨11, false⟩]⟩, ⟨1, 20, [⟨21, false⟩]⟩,
          ⟨2, 30, [⟨31, false⟩]⟩] (some 1)) = 0
    ∧ countEv (HBEvent.connect 2 31)
        (HEARTBEAT_work [⟨0, 10, [⟨11, false⟩]⟩, ⟨1, 20, [⟨21, false⟩]⟩,
          ⟨2, 30, [⟨31, false⟩]⟩] (some 1)) = 0
    ∧ countEv (HBEvent.lock (HBLock.servers 1))
        (HEARTBEAT_work [⟨0, 10, [⟨11, false⟩]⟩, ⟨1, 20, [⟨21, false⟩]⟩,
          ⟨2, 30, [⟨31, false⟩]⟩] (some 1)) = 0
    ∧ countEv (HBEvent.lock (HBLock.servers 2))
        (HEARTBEAT_work [⟨0, 10, [⟨11, false⟩]⟩, ⟨1, 20, [⟨21, false⟩]⟩,
          ⟨2, 30, [⟨31, false⟩]⟩] (some 1)) = 0
    ∧ countEv (HBEvent.increfDb 1)
        (HEARTBEAT_work [⟨0, 10, [⟨11, false⟩]⟩, ⟨1, 20, [⟨21, false⟩]⟩,
          ⟨2, 30, [⟨31, false⟩]⟩] (some 1)) = 1
    ∧ countEv (HBEvent.decrefDb 1)
        (HEARTBEAT_work [⟨0, 10, [⟨11, false⟩]⟩, ⟨1, 20, [⟨21, false⟩]⟩,
          ⟨2, 30, [⟨31, false⟩]⟩] (some 1)) = 0
    ∧ countEv (HBEvent.increfDb 2)
        (HEARTBEAT_work [⟨0, 10, [⟨11, false⟩]⟩, ⟨1, 20, [⟨21, false⟩]⟩,
          ⟨2, 30, [⟨31, false⟩]⟩] (some 1)) = 1
    ∧ countEv (HBEvent.decrefDb 2)
        (HEARTBEAT_work [⟨0, 10, [⟨11, false⟩]⟩, ⟨1, 20, [⟨21, false⟩]⟩,
          ⟨2, 30, [⟨31, false⟩]⟩] (some 1)) = 0
    ∧ countEv (HBEvent.decrefDb 0)
        (HEARTBEAT_work [⟨0, 10, [⟨11, false⟩]⟩, ⟨1, 20, [⟨21, false⟩]⟩,
          ⟨2, 30, [⟨31, false⟩]⟩] (some 1)) = 3 := by
  decide

/-- **C6**: the timestamped worker trace erases to the worker trace (same
events in the same order), and every connect call in it was emitted at a
check-point `t` whose status read — the one guarding that very call — did
not observe a cancelled status (`cancelledAt cT t = false`), and targets a
listed server of the corresponding snapshot database that is not that
database's self entry and has no open connection; in particular a
database's self entry is never passed to the connector. -/
theorem c6_connect_only_valid_targets (dbs : List SDatabase) (cT : Option Nat) :
    (HEARTBEAT_workT dbs cT).map Prod.snd = HEARTBEAT_work dbs cT
    ∧ ∀ t d s, (t, HBEvent.connect d s) ∈ HEARTBEAT_workT dbs cT →
        cancelledAt cT t = false
        ∧ ∃ db, db ∈ dbs ∧ db.dbid = d ∧ ∃ srv, srv ∈ db.servers ∧ srv.sid = s
          ∧ srv.sid ≠ db.self ∧ srv.socket = false := by
  refine ⟨HEARTBEAT_workT_map_snd dbs cT, fun t d s h => ?_⟩
  rw [HEARTBEAT_workT] at h
  rcases List.mem_append.1 h with h1 | h1
  · rcases List.mem_append.1 h1 with h2 | h2
    · rcases List.mem_append.1 h2 with h3 | h3
      · rcases List.mem_cons.1 h3 with h4 | h4
        · injection h4 with ht he
          exact HBEvent.noConfusion he
        · rcases List.mem_map.1 h4 with ⟨x, -, h5⟩
          injection h5 with ht he
          exact HBEvent.noConfusion he
      · rcases List.mem_cons.1 h3 with h4 | h4
        · injection h4 with ht he
          exact HBEvent.noConfusion he
        · cases h4
    · exact dbTraceT_connect_inv cT dbs 0 h2
  · exfalso
    revert h1
    cases dbLastVar cT dbs 0 with
    | none =>
        intro h1
        cases h1
    | some v =>
        intro h1
        injection List.eq_of_mem_replicate h1 with ht he
        exact HBEvent.noConfusion he

/-- **C6 witness**: one database (id 0, self entry sid 10) with one
disconnected peer (sid 11); its connect call is in the timestamped trace at
check-point 0 and the characterization applies to it, giving in particular
a non-cancelled status read at that same check-point. -/
theorem c6_connect_only_valid_targets_witness :
    (0, HBEvent.connect 0 11) ∈ HEARTBEAT_workT [⟨0, 10, [⟨11, false⟩]⟩] none
    ∧ (cancelledAt none 0 = false
        ∧ ∃ db, db ∈ [(⟨0, 10, [⟨11, false⟩]⟩ : SDatabase)] ∧ db.dbid = 0
          ∧ ∃ srv, srv ∈ db.servers ∧ srv.sid = 11 ∧ srv.sid ≠ db.self
            ∧ srv.socket = false) :=
  ⟨by decide,
   (c6_connect_only_valid_targets [⟨0, 10, [⟨11, false⟩]⟩] none).2 0 0 11
     (by decide)⟩

/-- **C7**: with no membership change and every non-self server already
connected, the traversal issues zero connect calls — running it twice in a
row from such a state issues zero connect calls on the second run (and
already on the first), whatever the cancellation schedule of either run. -/
theorem c7_already_connected_noop (dbs : List SDatabase) (cT1 cT2 : Option Nat)
    (h : allConnected dbs = true) :
    connectCount (HEARTBEAT_work dbs cT1) = 0
    ∧ connectCount (HEARTBEAT_work dbs cT2) = 0 :=
  ⟨connectCount_work_allConnected dbs cT1 h,
   connectCount_work_allConnected dbs cT2 h⟩

/-- **C7 witness**: one database with its self entry and one already
connected peer; both runs issue zero connect calls. -/
theorem c7_already_connected_noop_witness :
    allConnected [⟨0, 10, [⟨10, false⟩, ⟨11, true⟩]⟩] = true
    ∧ connectCount
        (HEARTBEAT_work [⟨0, 10, [⟨10, false⟩, ⟨11, true⟩]⟩] none) = 0 :=
  ⟨by decide,
   (c7_already_connected_noop [⟨0, 10, [⟨10, false⟩, ⟨11, true⟩]⟩] none none
      (by decide)).2⟩

/-- **C8** (counterexample to failure surfacing): when timer-subsystem
creation fails (`timerInitOk = false`), `siri_heartbeat_init` still starts
the timer and produces exactly the state it produces on success — nothing
is surfaced to the caller (the C function returns void and ignores the
`uv_timer_init` result), contradicting "the failure is fatal and surfaced
to the caller (no task starts)". -/
theorem c8_init_failure_not_surfaced :
    (siri_heartbeat_init 30 false ⟨Status.pending, 0, 0, false⟩).timerStarted = true
    ∧ siri_heartbeat_init 30 false ⟨Status.pending, 0, 0, false⟩
        = siri_heartbeat_init 30 true ⟨Status.pending, 0, 0, false⟩ := by
  decide

/-- **C8 amended**: `siri_heartbeat_init` sets the status to pending and
starts the timer with initial delay and repeat period
`heartbeat_interval * 1000` milliseconds, unconditionally and regardless of
the timer-subsystem creation outcome; no failure is surfaced to the
caller. -/
theorem c8_init_behaviour (interval : Nat) (ok : Bool) (prev : HeartbeatObj) :
    siri_heartbeat_init interval ok prev
      = ⟨Status.pending, interval * 1000, interval * 1000, true⟩ := rfl

/-- **C9**: in every worker trace, a membership mutex is held only across
the snapshot copy and reference incrementing: every `sleep(1)`, every
connect attempt, every reference decrement and every mutex acquisition
happens with no mutex held. -/
theorem c9_locks_never_held_across_io (dbs : List SDatabase) (cT : Option Nat) :
    lockDiscipline [] (HEARTBEAT_work dbs cT) = true := by
  rw [HEARTBEAT_work]
  have hmap := lockDiscipline_increfDbs [HBLock.dbList] dbs
  have htr := lockDiscipline_dbTrace cT dbs 0
  have hfin : lockDiscipline []
      (match dbLastVar cT dbs 0 with
        | none => []
        | some v => List.replicate dbs.length (HBEvent.decrefDb v)) = true := by
    cases dbLastVar cT dbs 0 with
    | none => rfl
    | some v => exact lockDiscipline_replicate_decrefDb dbs.length v
  rw [lockDiscipline_append, lockDiscipline_append, lockDiscipline_append]
  rw [List.foldl_append, List.foldl_append]
  simp only [lockDiscipline, eventOkUnder, heldUpd, List.foldl_cons,
    List.isEmpty_nil, Bool.true_and, hmap.1, hmap.2, htr.1, htr.2]
  simp [List.erase_cons_head, lockDiscipline, eventOkUnder, heldUpd, hfin,
    hmap.1, hmap.2, htr.1, htr.2]

/-- **C10**: calling `siri_heartbeat_init` again resurrects the scheduler:
whatever the previous heartbeat state — a cancelled status included — the
post-state has status pending and the timer restarted. -/
theorem c10_reinit_resurrects (prev : HeartbeatObj) (interval : Nat) (ok : Bool) :
    (siri_heartbeat_init interval ok prev).status = Status.pending
    ∧ (siri_heartbeat_init interval ok prev).timerStarted = true :=
  ⟨rfl, rfl⟩

end Heartbeat
